import Mathlib

/-!
# Shallow embedding of the truelist-nextjs email-validation core

This file embeds the decision core of the `@truelist/nextjs` package:

* `src/middleware.ts` — Edge middleware (`withEmailValidation`,
  `validateEmailMiddleware`, its private `formVerify` and `extractEmail`);
* the route-handler module (`createValidationHandler`,
  `validateFormSubmission`, its private `formVerify` with an
  `AbortController` timeout);
* `src/server.ts` — the direct validator `validateEmail`;
* `src/zod.ts` — the schema-refinement predicate built by `truelistEmail`.

Asynchronous collaborators (the `fetch` call and the truelist SDK's
`client.email.validate`) are modelled by passing their outcome as an
explicit argument; thrown JavaScript errors become an `Except` error
channel.  Each entry point additionally reports which effects it
performed (credential resolution, body read, network call), so that
"no network call is attempted" is a provable statement.
-/

/-- JavaScript-level errors thrown by the code under study.
`jsError` is a plain `new Error(msg)`; `authenticationError` is the
truelist SDK's `AuthenticationError` class; `abortError` is the
`AbortError` with which an aborted `fetch` rejects. -/
inductive JsError
  | jsError (msg : String)
  | authenticationError
  | abortError
  deriving DecidableEq, Repr

/-- The `error instanceof AuthenticationError` test used by the catch
blocks in the route-handler module and in `zod.ts`. -/
def JsError.isAuthenticationError : JsError → Bool
  | .authenticationError => true
  | _ => false

/-- Whether `needle` occurs as a contiguous run inside the character
list. -/
def charsContain (needle : List Char) : List Char → Bool
  | [] => needle.isPrefixOf []
  | c :: rest => needle.isPrefixOf (c :: rest) || charsContain needle rest

/-- JavaScript `String.prototype.includes`, used by `extractEmail` on the
content-type header. -/
def strIncludes (hay needle : String) : Bool :=
  charsContain needle.toList hay.toList

/-- JavaScript `String.prototype.startsWith`: `strStartsWith s p` is
`s.startsWith(p)`. -/
def strStartsWith (s p : String) : Bool :=
  p.toList.isPrefixOf s.toList

instance {ε α : Type} [DecidableEq ε] [DecidableEq α] :
    DecidableEq (Except ε α) := fun x y =>
  match x, y with
  | .ok a, .ok b =>
    if h : a = b then .isTrue (by rw [h]) else .isFalse (by simp [h])
  | .error e, .error f =>
    if h : e = f then .isTrue (by rw [h]) else .isFalse (by simp [h])
  | .ok _, .error _ => .isFalse (by simp)
  | .error _, .ok _ => .isFalse (by simp)

/-- Raw API response of the `form_verify` endpoint
(`ApiFormVerifyResponse` in `middleware.ts`).  `state` ranges over
"valid" | "invalid" | "risky" | "unknown"; the code only ever compares
it against string literals, so it is a `String` here. -/
structure ApiFormVerifyResponse where
  email : String
  state : String
  sub_state : String
  free_email : Bool
  role : Bool
  disposable : Bool
  suggestion : Option String
  deriving DecidableEq, Repr

/-- The truelist SDK `ValidationResult` shape produced by the
`formVerify` helpers in the middleware and route-handler modules. -/
structure ValidationResult where
  email : String
  state : String
  subState : String
  freeEmail : Bool
  role : Bool
  disposable : Bool
  suggestion : Option String
  deriving DecidableEq, Repr

/-- A `fetch` `Response` as consumed by `formVerify`: status line, the
text body used in the error message, and the result of `response.json()`
parsed into the expected shape (`none` models a `json()` that throws,
i.e. a malformed payload). -/
structure FetchResponse where
  status : Nat
  statusText : String
  bodyText : String
  json : Option ApiFormVerifyResponse
  deriving DecidableEq, Repr

/-- `Response.ok`: status in the inclusive range 200–299. -/
def FetchResponse.ok (r : FetchResponse) : Bool :=
  200 ≤ r.status && r.status ≤ 299

/-- Outcome of the `fetch` call made by the middleware-module
`formVerify` (which installs no timeout): either a response arrives, or
the promise rejects with some error (network failure). -/
inductive FetchOutcome
  | respond (r : FetchResponse)
  | reject (e : JsError)
  deriving DecidableEq, Repr

/-- Outcome of the `fetch` call made by the route-handler `formVerify`,
which passes an `AbortController` signal and arms a timer that aborts it
after the configured timeout: either a response arrives in time, or the
promise rejects in time, or the timeout elapses first — the timer fires
`controller.abort()` and the in-flight `fetch` rejects with `AbortError`. -/
inductive RemoteBehavior
  | respond (r : FetchResponse)
  | reject (e : JsError)
  | timeout
  deriving DecidableEq, Repr

/-- The message of the generic error thrown on a non-2xx response:
`Truelist API error: ${status} ${statusText}${text ? ` - ${text}` : ""}`. -/
def apiErrorMessage (status : Nat) (statusText bodyText : String) : String :=
  "Truelist API error: " ++ toString status ++ " " ++ statusText ++
    (if bodyText = "" then "" else " - " ++ bodyText)

/-- Message of the error thrown when `response.json()` fails to parse. -/
def jsonParseErrorMessage : String := "Unexpected end of JSON input"

/-- Normalization of the wire-level response into `ValidationResult`
(the final `return` of both `formVerify` helpers). -/
def normalizeFormVerify (data : ApiFormVerifyResponse) : ValidationResult :=
  { email := data.email
    state := data.state
    subState := data.sub_state
    freeEmail := data.free_email
    role := data.role
    disposable := data.disposable
    suggestion := data.suggestion }

/-- `formVerify` of `src/middleware.ts` (no timeout, no 401 special
case): a rejected `fetch` propagates; a non-ok response raises the
generic `Truelist API error` message; an ok response is parsed and
normalized. -/
def mwFormVerify (outcome : FetchOutcome) : Except JsError ValidationResult :=
  match outcome with
  | .reject e => .error e
  | .respond r =>
    if !r.ok then
      .error (.jsError (apiErrorMessage r.status r.statusText r.bodyText))
    else
      match r.json with
      | none => .error (.jsError jsonParseErrorMessage)
      | some data => .ok (normalizeFormVerify data)

/-- `formVerify` of the route-handler module: identical to the
middleware one except that (a) the timeout case resolves to the
`AbortError` rejection of the aborted `fetch`, and (b) a 401 status is
mapped to `AuthenticationError` before the generic error is built. -/
def rhFormVerify (behavior : RemoteBehavior) : Except JsError ValidationResult :=
  match behavior with
  | .timeout => .error .abortError
  | .reject e => .error e
  | .respond r =>
    if !r.ok then
      if r.status = 401 then
        .error .authenticationError
      else
        .error (.jsError (apiErrorMessage r.status r.statusText r.bodyText))
    else
      match r.json with
      | none => .error (.jsError jsonParseErrorMessage)
      | some data => .ok (normalizeFormVerify data)

/-- A JSON value as seen through `typeof value === "string"`: only the
string case matters; every other shape is collapsed into non-string
constructors. -/
inductive JsValue
  | strV (s : String)
  | numV (n : Int)
  | boolV (b : Bool)
  | nullV
  | otherV
  deriving DecidableEq, Repr

/-- An entry of a parsed `FormData`: `formData.get` returns a string or
a `File`. -/
inductive FormDataValue
  | strV (s : String)
  | fileV
  deriving DecidableEq, Repr

/-- An incoming request as read by the code: method, `nextUrl.pathname`,
the `content-type` header, and the two possible parses of the body.
`jsonFields = none` models `request.json()` throwing; otherwise it holds
the key/value entries of the parsed object (a JSON body that is not an
object simply has no entries, so every lookup misses, as in JS).
`formFields = none` models `request.formData()` throwing; otherwise
lookup returns the first entry for the field, as `formData.get` does. -/
structure HttpRequest where
  method : String
  pathname : String
  contentType : Option String
  jsonFields : Option (List (String × JsValue))
  formFields : Option (List (String × FormDataValue))
  deriving DecidableEq, Repr

/-- `extractEmail` (identical in the middleware and route-handler
modules): dispatch on the content-type header, return the field's value
only when it is a string, swallow every parse failure into `none`. -/
def extractEmail (request : HttpRequest) (fieldName : String) : Option String :=
  let contentType := request.contentType.getD ""
  if strIncludes contentType "application/json" then
    match request.jsonFields with
    | none => none
    | some body =>
      match body.lookup fieldName with
      | some (.strV s) => some s
      | _ => none
  else if strIncludes contentType "multipart/form-data" ||
          strIncludes contentType "application/x-www-form-urlencoded" then
    match request.formFields with
    | none => none
    | some formData =>
      match formData.lookup fieldName with
      | some (.strV s) => some s
      | _ => none
  else
    none

/-- Message of the missing-credential error thrown by `getApiKey` in
`server.ts` and `middleware.ts` ("... pass \x7b apiKey \x7d in config."). -/
def missingApiKeyMessage : String :=
  "Truelist API key is required. Set the TRUELIST_API_KEY environment variable or pass \x7b apiKey \x7d in config."

/-- Message of the missing-credential error thrown inline by the zod
refinement ("... pass \x7b apiKey \x7d in options."). -/
def zodMissingApiKeyMessage : String :=
  "Truelist API key is required. Set the TRUELIST_API_KEY environment variable or pass \x7b apiKey \x7d in options."

/-- `getApiKey`: `configApiKey ?? process.env.TRUELIST_API_KEY`, then
`if (!key) throw` — so an explicit or environment value of `""` is as
missing as an absent one.  `env` is the current value of the
`TRUELIST_API_KEY` environment variable. -/
def getApiKey (configApiKey env : Option String) : Except JsError String :=
  match configApiKey.orElse (fun _ => env) with
  | none => .error (.jsError missingApiKeyMessage)
  | some key =>
    if key = "" then .error (.jsError missingApiKeyMessage) else .ok key

/-- Which observable effects an invocation performed. -/
structure Effects where
  credentialResolved : Bool := false
  bodyRead : Bool := false
  networkCalled : Bool := false
  deriving DecidableEq, Repr

/-- Result of one invocation of an entry point: the value returned (or
the error thrown, as `Except.error`) together with the effects made on
the way. -/
structure Run (α : Type) where
  result : Except JsError α
  effects : Effects
  deriving DecidableEq, Repr

/-- The deny payload `{ error, details: { state, subState, suggestion } }`. -/
structure ErrorDetails where
  state : String
  subState : String
  suggestion : Option String
  deriving DecidableEq, Repr

/-- `EmailValidationErrorResponse` of `types.ts`. -/
structure EmailValidationErrorResponse where
  error : String
  details : ErrorDetails
  deriving DecidableEq, Repr

/-- Terminal outcome of the Edge middleware: `NextResponse.next()` or a
422 JSON response. -/
inductive MwResponse
  | next
  | json422 (body : EmailValidationErrorResponse)
  deriving DecidableEq, Repr

/-- Terminal outcome of the route-handler validator: `null`
(pass-through) or a 422 JSON response. -/
inductive RhResponse
  | pass
  | json422 (body : EmailValidationErrorResponse)
  deriving DecidableEq, Repr

/-- `EmailValidationMiddlewareConfig`: optional fields model omitted
properties; defaults are applied at destructuring time exactly as in the
source (`fieldName = "email"`, `rejectInvalid = true`,
`rejectRisky = false`). -/
structure EmailValidationMiddlewareConfig where
  paths : List String
  fieldName : Option String := none
  rejectInvalid : Option Bool := none
  rejectRisky : Option Bool := none
  apiKey : Option String := none
  baseUrl : Option String := none
  deriving DecidableEq, Repr

/-- `ValidateEmailMiddlewareOptions`. -/
structure ValidateEmailMiddlewareOptions where
  fieldName : Option String := none
  apiKey : Option String := none
  baseUrl : Option String := none
  deriving DecidableEq, Repr

/-- `EmailValidationHandlerConfig` of the route-handler module (adds the
timeout, default 10_000 ms). -/
structure EmailValidationHandlerConfig where
  paths : List String
  fieldName : Option String := none
  rejectInvalid : Option Bool := none
  rejectRisky : Option Bool := none
  apiKey : Option String := none
  baseUrl : Option String := none
  timeout : Option Nat := none
  deriving DecidableEq, Repr

/-- The rejected-states set built inside both handlers:
start empty, add `"invalid"` if `rejectInvalid`, add `"risky"` if
`rejectRisky`. -/
def mwRejectedStates (rejectInvalid rejectRisky : Bool) : List String :=
  (if rejectInvalid then ["invalid"] else []) ++
    (if rejectRisky then ["risky"] else [])

/-- The deny payload built from a verification result. -/
def denyBody (result : ValidationResult) : EmailValidationErrorResponse :=
  { error := "Invalid email"
    details :=
      { state := result.state
        subState := result.subState
        suggestion := result.suggestion } }

/-- The per-request handler returned by `withEmailValidation`
(`src/middleware.ts`).  Guard: `request.method !== "POST" ||
!pathSet.has(request.nextUrl.pathname)` — an exact path-set membership
test.  The try/catch around `formVerify` is a bare `catch` that converts
every thrown error into `NextResponse.next()`. -/
def withEmailValidation (config : EmailValidationMiddlewareConfig)
    (env : Option String) (request : HttpRequest) (remote : FetchOutcome) :
    Run MwResponse :=
  let fieldName := config.fieldName.getD "email"
  let rejectInvalid := config.rejectInvalid.getD true
  let rejectRisky := config.rejectRisky.getD false
  if request.method != "POST" || !(config.paths.contains request.pathname) then
    ⟨.ok .next, {}⟩
  else
    match getApiKey config.apiKey env with
    | .error e => ⟨.error e, { credentialResolved := true }⟩
    | .ok _key =>
      match extractEmail request fieldName with
      | none => ⟨.ok .next, { credentialResolved := true, bodyRead := true }⟩
      | some email =>
        -- `if (!email)`: the empty string is as absent as `null`
        if email = "" then
          ⟨.ok .next, { credentialResolved := true, bodyRead := true }⟩
        else
          match mwFormVerify remote with
          | .ok result =>
            if (mwRejectedStates rejectInvalid rejectRisky).contains result.state then
              ⟨.ok (.json422 (denyBody result)),
               { credentialResolved := true, bodyRead := true, networkCalled := true }⟩
            else
              ⟨.ok .next,
               { credentialResolved := true, bodyRead := true, networkCalled := true }⟩
          | .error _ =>
            -- bare catch: if the Truelist API call failed, don't block
            ⟨.ok .next,
             { credentialResolved := true, bodyRead := true, networkCalled := true }⟩

/-- `validateEmailMiddleware` (`src/middleware.ts`): resolve the key,
extract, and return the raw `ValidationResult` (or `null`); no catch of
any kind around `formVerify`. -/
def validateEmailMiddleware (options : ValidateEmailMiddlewareOptions)
    (env : Option String) (request : HttpRequest) (remote : FetchOutcome) :
    Run (Option ValidationResult) :=
  let fieldName := options.fieldName.getD "email"
  match getApiKey options.apiKey env with
  | .error e => ⟨.error e, { credentialResolved := true }⟩
  | .ok _key =>
    match extractEmail request fieldName with
    | none => ⟨.ok none, { credentialResolved := true, bodyRead := true }⟩
    | some email =>
      if email = "" then
        ⟨.ok none, { credentialResolved := true, bodyRead := true }⟩
      else
        match mwFormVerify remote with
        | .ok result =>
          ⟨.ok (some result),
           { credentialResolved := true, bodyRead := true, networkCalled := true }⟩
        | .error e =>
          ⟨.error e,
           { credentialResolved := true, bodyRead := true, networkCalled := true }⟩

/-- The per-request validator returned by `createValidationHandler`
(route-handler module).  Guard: `paths.some(path =>
pathname.startsWith(path))` — prefix matching, and no method check.
Catch: re-throw `AuthenticationError`, swallow everything else into the
pass-through `null`. -/
def createValidationHandler (config : EmailValidationHandlerConfig)
    (env : Option String) (request : HttpRequest) (remote : RemoteBehavior) :
    Run RhResponse :=
  let fieldName := config.fieldName.getD "email"
  let rejectInvalid := config.rejectInvalid.getD true
  let rejectRisky := config.rejectRisky.getD false
  if !(config.paths.any (fun path => strStartsWith request.pathname path)) then
    ⟨.ok .pass, {}⟩
  else
    match getApiKey config.apiKey env with
    | .error e => ⟨.error e, { credentialResolved := true }⟩
    | .ok _key =>
      match extractEmail request fieldName with
      | none => ⟨.ok .pass, { credentialResolved := true, bodyRead := true }⟩
      | some email =>
        if email = "" then
          ⟨.ok .pass, { credentialResolved := true, bodyRead := true }⟩
        else
          match rhFormVerify remote with
          | .ok result =>
            if (mwRejectedStates rejectInvalid rejectRisky).contains result.state then
              ⟨.ok (.json422 (denyBody result)),
               { credentialResolved := true, bodyRead := true, networkCalled := true }⟩
            else
              ⟨.ok .pass,
               { credentialResolved := true, bodyRead := true, networkCalled := true }⟩
          | .error e =>
            if e.isAuthenticationError then
              ⟨.error e,
               { credentialResolved := true, bodyRead := true, networkCalled := true }⟩
            else
              ⟨.ok .pass,
               { credentialResolved := true, bodyRead := true, networkCalled := true }⟩

/-- The truelist SDK `ValidationResult` as returned by
`client.email.validate` (the `verify_inline` shape used by `server.ts`
and `zod.ts`). -/
structure ClientValidationResult where
  email : String
  domain : String
  canonical : String
  mxRecord : Option String
  firstName : Option String
  lastName : Option String
  state : String
  subState : String
  verifiedAt : String
  suggestion : Option String
  deriving DecidableEq, Repr

/-- `ValidateEmailConfig` of `server.ts`. -/
structure ValidateEmailConfig where
  apiKey : Option String := none
  baseUrl : Option String := none
  rejectStates : Option (List String) := none
  deriving DecidableEq, Repr

/-- `EmailValidationResult` of `server.ts`: the SDK result plus the four
convenience flags. -/
structure EmailValidationResult where
  email : String
  domain : String
  canonical : String
  mxRecord : Option String
  firstName : Option String
  lastName : Option String
  state : String
  subState : String
  verifiedAt : String
  suggestion : Option String
  isValid : Bool
  isInvalid : Bool
  isDisposable : Bool
  isRole : Bool
  deriving DecidableEq, Repr

/-- `validateEmail` (`src/server.ts`).  The SDK call
`client.email.validate(email)` is the collaborator: its outcome is the
`clientOutcome` argument.  There is no try/catch, so any error of the
call propagates unmodified. -/
def validateEmail (config : ValidateEmailConfig) (env : Option String)
    (clientOutcome : Except JsError ClientValidationResult) :
    Run EmailValidationResult :=
  match getApiKey config.apiKey env with
  | .error e => ⟨.error e, { credentialResolved := true }⟩
  | .ok _key =>
    match clientOutcome with
    | .error e =>
      ⟨.error e, { credentialResolved := true, networkCalled := true }⟩
    | .ok result =>
      let rejectStates := config.rejectStates.getD ["email_invalid"]
      ⟨.ok
        { email := result.email
          domain := result.domain
          canonical := result.canonical
          mxRecord := result.mxRecord
          firstName := result.firstName
          lastName := result.lastName
          state := result.state
          subState := result.subState
          verifiedAt := result.verifiedAt
          suggestion := result.suggestion
          isValid := !(rejectStates.contains result.state)
          isInvalid := result.state == "email_invalid"
          isDisposable := result.subState == "is_disposable"
          isRole := result.subState == "is_role" },
       { credentialResolved := true, networkCalled := true }⟩

/-- `TruelistEmailOptions` of `src/zod.ts`. -/
structure TruelistEmailOptions where
  rejectStates : Option (List String) := none
  message : Option String := none
  apiKey : Option String := none
  baseUrl : Option String := none
  deriving DecidableEq, Repr

/-- The async refinement predicate installed by `truelistEmail`
(`src/zod.ts`): check the API key first (the throw is outside the try),
then call the SDK; inside the catch, re-throw `AuthenticationError` and
fail open (`return true`) on everything else. -/
def truelistEmailRefine (options : TruelistEmailOptions) (env : Option String)
    (_email : String) (clientOutcome : Except JsError ClientValidationResult) :
    Run Bool :=
  let rejectedStates := options.rejectStates.getD ["invalid"]
  match options.apiKey.orElse (fun _ => env) with
  | none => ⟨.error (.jsError zodMissingApiKeyMessage), { credentialResolved := true }⟩
  | some apiKey =>
    if apiKey = "" then
      ⟨.error (.jsError zodMissingApiKeyMessage), { credentialResolved := true }⟩
    else
      match clientOutcome with
      | .ok result =>
        ⟨.ok (!(rejectedStates.contains result.state)),
         { credentialResolved := true, networkCalled := true }⟩
      | .error e =>
        if e.isAuthenticationError then
          ⟨.error e, { credentialResolved := true, networkCalled := true }⟩
        else
          ⟨.ok true, { credentialResolved := true, networkCalled := true }⟩

/-- Observer: did a middleware run end in a deny (422) decision? -/
def mwDenies (run : Run MwResponse) : Bool :=
  match run.result with
  | .ok (.json422 _) => true
  | _ => false

/-- Observer: the `isValid` flag of a direct-validator run, when it
returned a value. -/
def runIsValid (run : Run EmailValidationResult) : Option Bool :=
  match run.result with
  | .ok out => some out.isValid
  | .error _ => none

/-- A 200 response carrying a successfully parsed payload. -/
def okJson (data : ApiFormVerifyResponse) : FetchResponse :=
  { status := 200, statusText := "OK", bodyText := "", json := some data }

/-- The classification the spec's end-to-end scenario mocks:
`{state: "invalid", subState: "failed_no_mailbox", suggestion: null}`. -/
def invalidApiResponse : ApiFormVerifyResponse :=
  { email := "bad@bad.com"
    state := "invalid"
    sub_state := "failed_no_mailbox"
    free_email := false
    role := false
    disposable := false
    suggestion := none }

/-- The form request of the spec's end-to-end scenario: POST to
`/api/signup`, url-encoded body `email=bad@bad.com`. -/
def sampleFormRequest : HttpRequest :=
  { method := "POST"
    pathname := "/api/signup"
    contentType := some "application/x-www-form-urlencoded"
    jsonFields := none
    formFields := some [("email", .strV "bad@bad.com")] }

/-- A 401 Unauthorized response. -/
def unauthorizedFetch : FetchResponse :=
  { status := 401, statusText := "Unauthorized", bodyText := "", json := none }

/-- A concrete SDK result with the rejectable state `email_invalid`. -/
def sampleClientResult : ClientValidationResult :=
  { email := "bad@bad.com"
    domain := "bad.com"
    canonical := "bad@bad.com"
    mxRecord := none
    firstName := none
    lastName := none
    state := "email_invalid"
    subState := "failed_no_mailbox"
    verifiedAt := "2024-01-01T00:00:00Z"
    suggestion := none }

/-- A form request whose email field is present but empty. -/
def emptyFieldRequest : HttpRequest :=
  { method := "POST"
    pathname := "/api/signup"
    contentType := some "application/x-www-form-urlencoded"
    jsonFields := none
    formFields := some [("email", .strV "")] }

/-- The network's behavior for one call, with explicit timing: the call
settles (response or rejection) after `delay` milliseconds, or never
settles at all. -/
inductive NetworkActivity
  | respondAfter (delay : Nat) (r : FetchResponse)
  | rejectAfter (delay : Nat) (e : JsError)
  | never
  deriving DecidableEq, Repr

/-- Semantics of `await fetch(...)` under an optional abort timer
(`abortAt = some t` when `setTimeout(() => controller.abort(), t)` was
armed and the signal passed, `none` when not): if the timer fires
strictly before the network settles, the promise rejects with
`AbortError`; with no timer the await resolves exactly when the network
settles — and `none` models an await that never resolves (the call
hangs). -/
def awaitFetch (abortAt : Option Nat) (activity : NetworkActivity) :
    Option FetchOutcome :=
  match activity, abortAt with
  | .respondAfter delay r, some t =>
    if t < delay then some (.reject .abortError) else some (.respond r)
  | .respondAfter _ r, none => some (.respond r)
  | .rejectAfter delay e, some t =>
    if t < delay then some (.reject .abortError) else some (.reject e)
  | .rejectAfter _ e, none => some (.reject e)
  | .never, some _ => some (.reject .abortError)
  | .never, none => none

/-- The middleware-module `formVerify` viewed at the network level: its
`fetch` call passes no signal and arms no timer (`awaitFetch none`), so
the await resolves only when the network settles; a `none` result is a
call that hangs forever. -/
def mwFormVerifyNet (activity : NetworkActivity) :
    Option (Except JsError ValidationResult) :=
  (awaitFetch none activity).map mwFormVerify

/-- The route-handler `formVerify` at the network level: it arms
`setTimeout(() => controller.abort(), timeoutMs)` and passes
`controller.signal` to `fetch`, so the await settles by `timeoutMs` at
the latest; the resolved outcome is then processed exactly as by
`rhFormVerify` (an abort shows up as the `AbortError` rejection). -/
def rhFormVerifyNet (timeoutMs : Nat) (activity : NetworkActivity) :
    Option (Except JsError ValidationResult) :=
  (awaitFetch (some timeoutMs) activity).map fun outcome =>
    match outcome with
    | .respond r => rhFormVerify (.respond r)
    | .reject e => rhFormVerify (.reject e)

/-- Claim C7: for a POST to a configured path with content-type
`application/x-www-form-urlencoded` and body `email=bad@bad.com`, when
the remote service classifies it as state "invalid", subState
"failed_no_mailbox", suggestion null and the rejection set is the
default, the interception handler returns an HTTP 422 response whose
JSON body is exactly `Invalid email` with the details copied verbatim
from the classification result. -/
theorem formRejectionEndToEnd :
    (withEmailValidation { paths := ["/api/signup"], apiKey := some "key" } none
        sampleFormRequest (.respond (okJson invalidApiResponse))).result =
      .ok (.json422
        { error := "Invalid email"
          details := { state := "invalid", subState := "failed_no_mailbox",
                       suggestion := none } }) := by
  decide

/-- Claim C1 (counterexample): when the remote classification call made
by `withEmailValidation` yields an HTTP 401, the handler resolves to the
pass-through response `NextResponse.next()` — it does not propagate any
error, contrary to the claim that an authentication failure is always
re-raised by the interception handler. -/
theorem authFailureSwallowedByEdgeMiddleware :
    (withEmailValidation { paths := ["/api/signup"], apiKey := some "key" } none
        sampleFormRequest (.respond unauthorizedFetch)).result = .ok .next ∧
    (withEmailValidation { paths := ["/api/signup"], apiKey := some "key" } none
        sampleFormRequest (.respond unauthorizedFetch)).result ≠
      .error .authenticationError := by
  decide

/-- Claim C1 (amended): when the remote classification call yields an
authentication failure (HTTP 401), `createValidationHandler` maps it to
`AuthenticationError` and re-throws it out of its otherwise-fail-open
catch, and the schema-refinement predicate `truelistEmail` re-throws the
SDK's `AuthenticationError`; `withEmailValidation`, whose catch block is
unconditional, instead passes the request through like any other remote
error. -/
theorem authFailurePropagationAmended
    (cfg : EmailValidationHandlerConfig) (mcfg : EmailValidationMiddlewareConfig)
    (opts : TruelistEmailOptions) (env menv zenv : Option String)
    (req mreq : HttpRequest) (r : FetchResponse)
    (key mkey zkey email memail zemail : String)
    (hmatch : cfg.paths.any (fun path => strStartsWith req.pathname path) = true)
    (hkey : getApiKey cfg.apiKey env = .ok key)
    (hextract : extractEmail req (cfg.fieldName.getD "email") = some email)
    (hemail : email ≠ "")
    (h401 : r.status = 401)
    (hzkey : opts.apiKey.orElse (fun _ => zenv) = some zkey)
    (hzne : zkey ≠ "")
    (hmethod : mreq.method = "POST")
    (hpath : mreq.pathname ∈ mcfg.paths)
    (hmkey : getApiKey mcfg.apiKey menv = .ok mkey)
    (hmextract : extractEmail mreq (mcfg.fieldName.getD "email") = some memail)
    (hmemail : memail ≠ "") :
    (createValidationHandler cfg env req (.respond r)).result =
      .error .authenticationError ∧
    (truelistEmailRefine opts zenv zemail (.error .authenticationError)).result =
      .error .authenticationError ∧
    (withEmailValidation mcfg menv mreq (.respond r)).result = .ok .next := by
  refine ⟨?_, ?_, ?_⟩
  · simp [createValidationHandler, rhFormVerify, FetchResponse.ok, hmatch, hkey,
      hextract, hemail, h401, JsError.isAuthenticationError]
  · simp [truelistEmailRefine, hzkey, hzne, JsError.isAuthenticationError]
  · simp [withEmailValidation, mwFormVerify, FetchResponse.ok, hmethod, hpath,
      hmkey, hmextract, hmemail, h401]

/-- Witness for the amended claim C1 at concrete inputs. -/
theorem authFailurePropagationAmendedInstance :
    (createValidationHandler { paths := ["/api/signup"], apiKey := some "key" } none
        sampleFormRequest (.respond unauthorizedFetch)).result =
      .error .authenticationError ∧
    (truelistEmailRefine { apiKey := some "key" } none "bad@bad.com"
        (.error .authenticationError)).result = .error .authenticationError ∧
    (withEmailValidation { paths := ["/api/signup"], apiKey := some "key" } none
        sampleFormRequest (.respond unauthorizedFetch)).result = .ok .next :=
  authFailurePropagationAmended
    { paths := ["/api/signup"], apiKey := some "key" }
    { paths := ["/api/signup"], apiKey := some "key" }
    { apiKey := some "key" } none none none
    sampleFormRequest sampleFormRequest unauthorizedFetch
    "key" "key" "key" "bad@bad.com" "bad@bad.com" "bad@bad.com"
    (by decide) (by decide) (by decide) (by decide) (by decide) (by decide)
    (by decide) (by decide) (by decide) (by decide) (by decide) (by decide)

/-- Claim C8 (counterexample): the configured paths do not guard
`withEmailValidation` as path prefixes.  For a POST request to
`/api/signup/extra` — of which the configured path `/api/signup` is a
proper prefix — and a remote classification in the rejection set, the
handler passes the request through untouched, performing no credential
resolution, no body read and no network call, where prefix guarding
would have intercepted and rejected it. -/
theorem pathPrefixGuardRefuted :
    strStartsWith "/api/signup/extra" "/api/signup" = true ∧
    withEmailValidation { paths := ["/api/signup"], apiKey := some "key" } none
        { sampleFormRequest with pathname := "/api/signup/extra" }
        (.respond (okJson invalidApiResponse)) =
      ⟨.ok .next, {}⟩ := by
  decide

/-- Claim C8 (amended): every request whose HTTP method is not POST or
whose path is not exactly one of the configured paths is passed through
by `withEmailValidation` immediately, without resolving credentials,
reading the body, or making any network call — the configured paths
guard `withEmailValidation` by exact pathname match, while the
route-handler variant `createValidationHandler` guards by path prefix
(with no method check) and likewise short-circuits with no effects when
no configured path is a prefix of the request path. -/
theorem guardShortCircuitAmended
    (mcfg : EmailValidationMiddlewareConfig) (rcfg : EmailValidationHandlerConfig)
    (menv renv : Option String) (mreq rreq : HttpRequest)
    (hmguard : mreq.method ≠ "POST" ∨ mreq.pathname ∉ mcfg.paths)
    (hrmatch : rcfg.paths.any (fun path => strStartsWith rreq.pathname path) = false) :
    (∀ remote : FetchOutcome,
        withEmailValidation mcfg menv mreq remote = ⟨.ok .next, {}⟩) ∧
    (∀ rb : RemoteBehavior,
        createValidationHandler rcfg renv rreq rb = ⟨.ok .pass, {}⟩) := by
  constructor
  · intro remote
    rcases hmguard with h | h <;> simp [withEmailValidation, h]
  · intro rb
    simp [createValidationHandler, hrmatch]

/-- Witness for the amended claim C8: a GET request to a configured
path, and a request whose path no configured path prefixes. -/
theorem guardShortCircuitAmendedInstance :
    withEmailValidation { paths := ["/api/signup"], apiKey := some "key" } none
        { sampleFormRequest with method := "GET" }
        (.respond (okJson invalidApiResponse)) = ⟨.ok .next, {}⟩ ∧
    createValidationHandler { paths := ["/api/signup"], apiKey := some "key" } none
        { sampleFormRequest with pathname := "/api/other" }
        (.respond (okJson invalidApiResponse)) = ⟨.ok .pass, {}⟩ := by
  have h := guardShortCircuitAmended
    { paths := ["/api/signup"], apiKey := some "key" }
    { paths := ["/api/signup"], apiKey := some "key" } none none
    { sampleFormRequest with method := "GET" }
    { sampleFormRequest with pathname := "/api/other" }
    (by decide) (by decide)
  exact ⟨h.1 (.respond (okJson invalidApiResponse)),
         h.2 (.respond (okJson invalidApiResponse))⟩

/-- Claim C2: in all three adapters — the interception handler's
422-versus-pass decision, the direct validator's `isValid` flag, and
the schema-refinement predicate's boolean — the decision is Deny exactly
when the classification state is a member of the configured
rejection-state set, and the `subState`/`suggestion` values never affect
the allow/deny decision. -/
theorem decisionIsStateMembership
    (mcfg : EmailValidationMiddlewareConfig) (scfg : ValidateEmailConfig)
    (opts : TruelistEmailOptions) (menv senv zenv : Option String)
    (mreq : HttpRequest) (remote : FetchOutcome) (vr : ValidationResult)
    (mkey skey zkey memail zemail : String)
    (cr czr : ClientValidationResult)
    (hmethod : mreq.method = "POST")
    (hpath : mreq.pathname ∈ mcfg.paths)
    (hmkey : getApiKey mcfg.apiKey menv = .ok mkey)
    (hmextract : extractEmail mreq (mcfg.fieldName.getD "email") = some memail)
    (hmemail : memail ≠ "")
    (hfv : mwFormVerify remote = .ok vr)
    (hskey : getApiKey scfg.apiKey senv = .ok skey)
    (hzkey : opts.apiKey.orElse (fun _ => zenv) = some zkey)
    (hzne : zkey ≠ "") :
    mwDenies (withEmailValidation mcfg menv mreq remote) =
      (mwRejectedStates (mcfg.rejectInvalid.getD true)
        (mcfg.rejectRisky.getD false)).contains vr.state ∧
    (∀ d d' : ApiFormVerifyResponse, d.state = d'.state →
        mwDenies (withEmailValidation mcfg menv mreq (.respond (okJson d))) =
          mwDenies (withEmailValidation mcfg menv mreq (.respond (okJson d')))) ∧
    runIsValid (validateEmail scfg senv (.ok cr)) =
      some (!((scfg.rejectStates.getD ["email_invalid"]).contains cr.state)) ∧
    (truelistEmailRefine opts zenv zemail (.ok czr)).result =
      .ok (!((opts.rejectStates.getD ["invalid"]).contains czr.state)) := by
  refine ⟨?_, ?_, ?_, ?_⟩
  · simp only [withEmailValidation, hmethod, hpath, hmkey, hmextract, hfv]
    by_cases hc : vr.state ∈
        mwRejectedStates (mcfg.rejectInvalid.getD true) (mcfg.rejectRisky.getD false) <;>
      simp [mwDenies, hmethod, hpath, hmemail, hc]
  · intro d d' hdd
    simp only [withEmailValidation, hmethod, hpath, hmkey, hmextract,
      mwFormVerify, okJson, FetchResponse.ok, normalizeFormVerify, hdd]
    by_cases hc : d'.state ∈
        mwRejectedStates (mcfg.rejectInvalid.getD true) (mcfg.rejectRisky.getD false) <;>
      simp [mwDenies, hmethod, hpath, hmemail, hc]
  · simp [runIsValid, validateEmail, hskey]
  · simp [truelistEmailRefine, hzkey, hzne]

/-- Witness for claim C2 at concrete inputs. -/
theorem decisionIsStateMembershipInstance :
    mwDenies (withEmailValidation { paths := ["/api/signup"], apiKey := some "key" }
        none sampleFormRequest (.respond (okJson invalidApiResponse))) =
      (mwRejectedStates true false).contains
        (normalizeFormVerify invalidApiResponse).state ∧
    runIsValid (validateEmail {} (some "key") (.ok sampleClientResult)) =
      some (!(["email_invalid"].contains sampleClientResult.state)) ∧
    (truelistEmailRefine {} (some "key") "bad@bad.com"
        (.ok sampleClientResult)).result =
      .ok (!(["invalid"].contains sampleClientResult.state)) := by
  have h := decisionIsStateMembership
    { paths := ["/api/signup"], apiKey := some "key" } {} {}
    none (some "key") (some "key") sampleFormRequest
    (.respond (okJson invalidApiResponse)) (normalizeFormVerify invalidApiResponse)
    "key" "key" "key" "bad@bad.com" "bad@bad.com"
    sampleClientResult sampleClientResult
    (by decide) (by decide) (by decide) (by decide) (by decide) (by decide)
    (by decide) (by decide) (by decide)
  exact ⟨h.1, h.2.2.1, h.2.2.2⟩

/-- Claim C3 (counterexample): the cited Remote Verifier — `formVerify`
of `src/middleware.ts` — creates no `AbortController`, arms no timer and
passes no signal to `fetch`: a call the network never answers hangs
indefinitely (the await never resolves), and a response arriving an hour
later is still consumed rather than aborted.  The claim's
timeout-and-abort behavior is false of this verifier, which has no
configured timeout at all. -/
theorem middlewareVerifierNeverAborts :
    mwFormVerifyNet .never = none ∧
    mwFormVerifyNet (.respondAfter 3600000 (okJson invalidApiResponse)) =
      some (.ok (normalizeFormVerify invalidApiResponse)) := by
  decide

/-- Claim C3 (amended): the route-handler module's verifier — the one
with a configured timeout — aborts every call the network has not
settled within that timeout and resolves to the generic `AbortError`
(not an authentication failure), never hangs, and never produces a
partial classification: every successful result comes from a complete,
successfully parsed 2xx response that arrived within the timeout.  The
Edge middleware's verifier (`formVerify` of `src/middleware.ts`)
installs no timeout: it consumes a response after any delay whatsoever
and hangs forever on a call that never settles. -/
theorem timeoutAbortAmended (timeoutMs : Nat) :
    (∀ (delay : Nat) (r : FetchResponse), timeoutMs < delay →
        rhFormVerifyNet timeoutMs (.respondAfter delay r) =
          some (.error .abortError)) ∧
    (∀ (delay : Nat) (e : JsError), timeoutMs < delay →
        rhFormVerifyNet timeoutMs (.rejectAfter delay e) =
          some (.error .abortError)) ∧
    rhFormVerifyNet timeoutMs .never = some (.error .abortError) ∧
    JsError.isAuthenticationError .abortError = false ∧
    (∀ (activity : NetworkActivity) (vr : ValidationResult),
        rhFormVerifyNet timeoutMs activity = some (.ok vr) →
        ∃ (delay : Nat) (r : FetchResponse) (data : ApiFormVerifyResponse),
          activity = .respondAfter delay r ∧ delay ≤ timeoutMs ∧
          r.ok = true ∧ r.json = some data ∧ vr = normalizeFormVerify data) ∧
    (∀ (delay : Nat) (r : FetchResponse),
        mwFormVerifyNet (.respondAfter delay r) =
          some (mwFormVerify (.respond r))) ∧
    mwFormVerifyNet .never = none := by
  refine ⟨?_, ?_, rfl, rfl, ?_, ?_, rfl⟩
  · intro delay r h
    simp [rhFormVerifyNet, awaitFetch, h, rhFormVerify]
  · intro delay e h
    simp [rhFormVerifyNet, awaitFetch, h, rhFormVerify]
  · intro activity vr h
    cases activity with
    | never => simp [rhFormVerifyNet, awaitFetch, rhFormVerify] at h
    | rejectAfter delay e =>
      by_cases hd : timeoutMs < delay <;>
        simp [rhFormVerifyNet, awaitFetch, hd, rhFormVerify] at h
    | respondAfter delay r =>
      by_cases hd : timeoutMs < delay
      · simp [rhFormVerifyNet, awaitFetch, hd, rhFormVerify] at h
      · simp [rhFormVerifyNet, awaitFetch, hd] at h
        cases hok : r.ok with
        | false =>
          simp only [rhFormVerify, hok, Bool.not_false, if_true] at h
          split at h <;> simp at h
        | true =>
          cases hj : r.json with
          | none => simp [rhFormVerify, hok, hj] at h
          | some data =>
            simp [rhFormVerify, hok, hj] at h
            exact ⟨delay, r, data, rfl, Nat.le_of_not_lt hd, hok, hj, h.symm⟩
  · intro delay r
    simp [mwFormVerifyNet, awaitFetch]

/-- Witness for the amended claim C3: the default 10-second timeout, a
response that would arrive one millisecond too late (aborted), and a
prompt complete response (consumed whole). -/
theorem timeoutAbortAmendedInstance :
    rhFormVerifyNet 10000 (.respondAfter 10001 (okJson invalidApiResponse)) =
      some (.error .abortError) ∧
    ∃ (delay : Nat) (r : FetchResponse) (data : ApiFormVerifyResponse),
      NetworkActivity.respondAfter 400 (okJson invalidApiResponse) =
        .respondAfter delay r ∧ delay ≤ 10000 ∧ r.ok = true ∧
      r.json = some data ∧
      normalizeFormVerify invalidApiResponse = normalizeFormVerify data := by
  have h := timeoutAbortAmended 10000
  exact ⟨h.1 10001 (okJson invalidApiResponse) (by decide),
         h.2.2.2.2.1 (.respondAfter 400 (okJson invalidApiResponse))
           (normalizeFormVerify invalidApiResponse) (by decide)⟩

/-- Claim C4: when no explicit API key is configured and the environment
variable is unset, every adapter fails with the missing-credential error
before any network call is attempted, and the error is never swallowed
by fail-open handling (the conclusion holds for every possible remote
outcome, and the network-call effect is false). -/
theorem missingCredentialAlwaysFatal
    (scfg : ValidateEmailConfig) (mcfg : EmailValidationMiddlewareConfig)
    (rcfg : EmailValidationHandlerConfig) (opts : TruelistEmailOptions)
    (mreq rreq : HttpRequest) (zemail : String)
    (hs : scfg.apiKey = none) (hm : mcfg.apiKey = none)
    (hr : rcfg.apiKey = none) (hz : opts.apiKey = none)
    (hmethod : mreq.method = "POST") (hpath : mreq.pathname ∈ mcfg.paths)
    (hrmatch : rcfg.paths.any (fun path => strStartsWith rreq.pathname path) = true) :
    (∀ co : Except JsError ClientValidationResult,
        (validateEmail scfg none co).result = .error (.jsError missingApiKeyMessage) ∧
        (validateEmail scfg none co).effects.networkCalled = false) ∧
    (∀ remote : FetchOutcome,
        (withEmailValidation mcfg none mreq remote).result =
          .error (.jsError missingApiKeyMessage) ∧
        (withEmailValidation mcfg none mreq remote).effects.networkCalled = false ∧
        (withEmailValidation mcfg none mreq remote).effects.bodyRead = false) ∧
    (∀ rb : RemoteBehavior,
        (createValidationHandler rcfg none rreq rb).result =
          .error (.jsError missingApiKeyMessage) ∧
        (createValidationHandler rcfg none rreq rb).effects.networkCalled = false) ∧
    (∀ co : Except JsError ClientValidationResult,
        (truelistEmailRefine opts none zemail co).result =
          .error (.jsError zodMissingApiKeyMessage) ∧
        (truelistEmailRefine opts none zemail co).effects.networkCalled = false) := by
  refine ⟨fun co => ?_, fun remote => ?_, fun rb => ?_, fun co => ?_⟩
  · simp [validateEmail, getApiKey, hs, Option.orElse]
  · simp [withEmailValidation, getApiKey, hm, hmethod, hpath, Option.orElse]
  · simp [createValidationHandler, getApiKey, hr, hrmatch, Option.orElse]
  · simp [truelistEmailRefine, hz, Option.orElse]

/-- Witness for claim C4 at concrete inputs. -/
theorem missingCredentialAlwaysFatalInstance :
    (validateEmail {} none (.ok sampleClientResult)).result =
      .error (.jsError missingApiKeyMessage) ∧
    (withEmailValidation { paths := ["/api/signup"] } none sampleFormRequest
        (.respond (okJson invalidApiResponse))).result =
      .error (.jsError missingApiKeyMessage) ∧
    (createValidationHandler { paths := ["/api/signup"] } none sampleFormRequest
        .timeout).result = .error (.jsError missingApiKeyMessage) ∧
    (truelistEmailRefine {} none "bad@bad.com"
        (.ok sampleClientResult)).result = .error (.jsError zodMissingApiKeyMessage) := by
  have h := missingCredentialAlwaysFatal {} { paths := ["/api/signup"] }
    { paths := ["/api/signup"] } {} sampleFormRequest sampleFormRequest
    "bad@bad.com" (by decide) (by decide) (by decide) (by decide) (by decide)
    (by decide) (by decide)
  exact ⟨(h.1 (.ok sampleClientResult)).1,
         (h.2.1 (.respond (okJson invalidApiResponse))).1,
         (h.2.2.1 .timeout).1,
         (h.2.2.2 (.ok sampleClientResult)).1⟩

/-- Claim C5: a generic (non-authentication) remote error becomes the
pass-through outcome in the interception handler and `true` in the
schema-refinement predicate, but propagates unmodified to the caller of
the direct validator `validateEmail`, which has no catch around the
network call. -/
theorem remoteErrorFailOpenSplit
    (e : JsError) (mcfg : EmailValidationMiddlewareConfig)
    (scfg : ValidateEmailConfig) (opts : TruelistEmailOptions)
    (menv senv zenv : Option String) (mreq : HttpRequest)
    (remote : FetchOutcome) (mkey skey zkey memail zemail : String)
    (he : e.isAuthenticationError = false)
    (hmethod : mreq.method = "POST") (hpath : mreq.pathname ∈ mcfg.paths)
    (hmkey : getApiKey mcfg.apiKey menv = .ok mkey)
    (hmextract : extractEmail mreq (mcfg.fieldName.getD "email") = some memail)
    (hmemail : memail ≠ "")
    (hfv : mwFormVerify remote = .error e)
    (hskey : getApiKey scfg.apiKey senv = .ok skey)
    (hzkey : opts.apiKey.orElse (fun _ => zenv) = some zkey)
    (hzne : zkey ≠ "") :
    (withEmailValidation mcfg menv mreq remote).result = .ok .next ∧
    (truelistEmailRefine opts zenv zemail (.error e)).result = .ok true ∧
    (validateEmail scfg senv (.error e)).result = .error e := by
  refine ⟨?_, ?_, ?_⟩
  · simp [withEmailValidation, hmethod, hpath, hmkey, hmextract, hmemail, hfv]
  · simp [truelistEmailRefine, hzkey, hzne, he]
  · simp [validateEmail, hskey]

/-- Witness for claim C5: a network-level fetch failure. -/
theorem remoteErrorFailOpenSplitInstance :
    (withEmailValidation { paths := ["/api/signup"], apiKey := some "key" } none
        sampleFormRequest (.reject (.jsError "fetch failed"))).result = .ok .next ∧
    (truelistEmailRefine { apiKey := some "key" } none "bad@bad.com"
        (.error (.jsError "fetch failed"))).result = .ok true ∧
    (validateEmail { apiKey := some "key" } none
        (.error (.jsError "fetch failed"))).result = .error (.jsError "fetch failed") :=
  remoteErrorFailOpenSplit (.jsError "fetch failed")
    { paths := ["/api/signup"], apiKey := some "key" } { apiKey := some "key" }
    { apiKey := some "key" } none none none sampleFormRequest
    (.reject (.jsError "fetch failed")) "key" "key" "key" "bad@bad.com" "bad@bad.com"
    (by decide) (by decide) (by decide) (by decide) (by decide) (by decide)
    (by decide) (by decide) (by decide) (by decide)

/-- Claim C6: extraction never raises — it is a total function into an
optional string, for every request including those with no content-type
header (the source reads `headers.get("content-type") ?? ""`) — and:
under `application/json` it returns the field's value exactly when that
value is a string (a number yields absent); a parse failure of the JSON
body yields absent; a parse failure of the form body under a form
content type yields absent; and any unrecognized content type (the
missing header included) yields absent regardless of the body. -/
theorem extractionNeverRaises
    (req : HttpRequest) (fieldName s : String) (n : Int)
    (body : List (String × JsValue)) :
    (extractEmail req fieldName = none ∨
      ∃ v : String, extractEmail req fieldName = some v) ∧
    (strIncludes (req.contentType.getD "") "application/json" = true →
      req.jsonFields = some body →
      body.lookup fieldName = some (.strV s) →
      extractEmail req fieldName = some s) ∧
    (strIncludes (req.contentType.getD "") "application/json" = true →
      req.jsonFields = some body →
      body.lookup fieldName = some (.numV n) →
      extractEmail req fieldName = none) ∧
    (strIncludes (req.contentType.getD "") "application/json" = true →
      req.jsonFields = none → extractEmail req fieldName = none) ∧
    (strIncludes (req.contentType.getD "") "application/json" = false →
      (strIncludes (req.contentType.getD "") "multipart/form-data" = true ∨
        strIncludes (req.contentType.getD "") "application/x-www-form-urlencoded" = true) →
      req.formFields = none → extractEmail req fieldName = none) ∧
    (strIncludes (req.contentType.getD "") "application/json" = false →
      strIncludes (req.contentType.getD "") "multipart/form-data" = false →
      strIncludes (req.contentType.getD "") "application/x-www-form-urlencoded" = false →
      extractEmail req fieldName = none) := by
  refine ⟨?_, ?_, ?_, ?_, ?_, ?_⟩
  · cases h : extractEmail req fieldName with
    | none => exact Or.inl rfl
    | some v => exact Or.inr ⟨v, rfl⟩
  · intro hjson hbody hlookup
    simp [extractEmail, hjson, hbody, hlookup]
  · intro hjson hbody hlookup
    simp [extractEmail, hjson, hbody, hlookup]
  · intro hjson hbody
    simp [extractEmail, hjson, hbody]
  · intro hjson hform hnone
    rcases hform with h | h <;> simp [extractEmail, hjson, h, hnone]
  · intro h1 h2 h3
    simp [extractEmail, h1, h2, h3]

/-- Witness for claim C6: a JSON request with the spec's example value,
a form request whose body fails to parse, and a request with no
content-type header at all — the last two both extract to absent. -/
theorem extractionNeverRaisesInstance :
    extractEmail
        { method := "POST", pathname := "/api/signup",
          contentType := some "application/json",
          jsonFields := some [("email", .strV "x@y.com")], formFields := none }
        "email" = some "x@y.com" ∧
    extractEmail
        { method := "POST", pathname := "/api/signup",
          contentType := some "application/x-www-form-urlencoded",
          jsonFields := none, formFields := none }
        "email" = none ∧
    extractEmail
        { method := "POST", pathname := "/api/signup", contentType := none,
          jsonFields := none, formFields := some [("email", .strV "x@y.com")] }
        "email" = none := by
  refine ⟨?_, ?_, ?_⟩
  · exact (extractionNeverRaises
      { method := "POST", pathname := "/api/signup",
        contentType := some "application/json",
        jsonFields := some [("email", .strV "x@y.com")], formFields := none }
      "email" "x@y.com" 0 [("email", .strV "x@y.com")]).2.1
      (by decide) rfl (by decide)
  · exact (extractionNeverRaises
      { method := "POST", pathname := "/api/signup",
        contentType := some "application/x-www-form-urlencoded",
        jsonFields := none, formFields := none }
      "email" "x@y.com" 0 []).2.2.2.2.1
      (by decide) (Or.inr (by decide)) rfl
  · exact (extractionNeverRaises
      { method := "POST", pathname := "/api/signup", contentType := none,
        jsonFields := none, formFields := some [("email", .strV "x@y.com")] }
      "email" "x@y.com" 0 []).2.2.2.2.2
      (by decide) (by decide) (by decide)

/-- Claim C9: an extracted field value that is the empty string is
treated exactly like an absent field by `validateEmailMiddleware` (null
is returned) and by the interception handler (pass-through), and no
network call is made, for every possible remote outcome. -/
theorem emptyEmailTreatedAsAbsent
    (opts : ValidateEmailMiddlewareOptions) (mcfg : EmailValidationMiddlewareConfig)
    (env menv : Option String) (req mreq : HttpRequest) (key mkey : String)
    (hkey : getApiKey opts.apiKey env = .ok key)
    (hextract : extractEmail req (opts.fieldName.getD "email") = some "")
    (hmethod : mreq.method = "POST") (hpath : mreq.pathname ∈ mcfg.paths)
    (hmkey : getApiKey mcfg.apiKey menv = .ok mkey)
    (hmextract : extractEmail mreq (mcfg.fieldName.getD "email") = some "") :
    (∀ remote : FetchOutcome,
        validateEmailMiddleware opts env req remote =
          ⟨.ok none, { credentialResolved := true, bodyRead := true }⟩) ∧
    (∀ remote : FetchOutcome,
        withEmailValidation mcfg menv mreq remote =
          ⟨.ok .next, { credentialResolved := true, bodyRead := true }⟩) := by
  constructor
  · intro remote
    simp [validateEmailMiddleware, hkey, hextract]
  · intro remote
    simp [withEmailValidation, hmethod, hpath, hmkey, hmextract]

/-- Witness for claim C9: a form body with `email=`(empty). -/
theorem emptyEmailTreatedAsAbsentInstance :
    validateEmailMiddleware { apiKey := some "key" } none emptyFieldRequest
        (.respond (okJson invalidApiResponse)) =
      ⟨.ok none, { credentialResolved := true, bodyRead := true }⟩ ∧
    withEmailValidation { paths := ["/api/signup"], apiKey := some "key" } none
        emptyFieldRequest (.respond (okJson invalidApiResponse)) =
      ⟨.ok .next, { credentialResolved := true, bodyRead := true }⟩ := by
  have h := emptyEmailTreatedAsAbsent { apiKey := some "key" }
    { paths := ["/api/signup"], apiKey := some "key" } none none
    emptyFieldRequest emptyFieldRequest "key" "key"
    (by decide) (by decide) (by decide) (by decide) (by decide) (by decide)
  exact ⟨h.1 (.respond (okJson invalidApiResponse)),
         h.2 (.respond (okJson invalidApiResponse))⟩

/-- Claim C10: in `validateEmail` the convenience flags come from fixed
literal comparisons — `isInvalid` from `state === "email_invalid"`,
`isDisposable` from `subState === "is_disposable"`, `isRole` from
`subState === "is_role"` — independent of the configured `rejectStates`,
while `isValid` is the negation of `rejectStates` membership; so when
`rejectStates` lacks `"email_invalid"` and the state is
`"email_invalid"`, the result has `isValid = true` and
`isInvalid = true` simultaneously. -/
theorem convenienceFlagsFromLiterals
    (scfg : ValidateEmailConfig) (senv : Option String)
    (cr : ClientValidationResult) (skey : String)
    (hskey : getApiKey scfg.apiKey senv = .ok skey) :
    ∃ out : EmailValidationResult,
      (validateEmail scfg senv (.ok cr)).result = .ok out ∧
      out.isValid = !((scfg.rejectStates.getD ["email_invalid"]).contains cr.state) ∧
      out.isInvalid = (cr.state == "email_invalid") ∧
      out.isDisposable = (cr.subState == "is_disposable") ∧
      out.isRole = (cr.subState == "is_role") ∧
      ((scfg.rejectStates.getD ["email_invalid"]).contains cr.state = false →
        cr.state = "email_invalid" → out.isValid = true ∧ out.isInvalid = true) := by
  simp only [validateEmail, hskey]
  exact ⟨_, rfl, rfl, rfl, rfl, rfl,
    fun h1 h2 => ⟨by simp only [Bool.not_eq_true']; simpa using h1, by simp [h2]⟩⟩

/-- Witness for claim C10: `rejectStates := ["risky"]` together with a
result in state `email_invalid` yields `isValid` and `isInvalid` both
true. -/
theorem convenienceFlagsFromLiteralsInstance :
    ∃ out : EmailValidationResult,
      (validateEmail { apiKey := some "key", rejectStates := some ["risky"] } none
          (.ok sampleClientResult)).result = .ok out ∧
      out.isValid = !(["risky"].contains sampleClientResult.state) ∧
      out.isInvalid = (sampleClientResult.state == "email_invalid") ∧
      out.isDisposable = (sampleClientResult.subState == "is_disposable") ∧
      out.isRole = (sampleClientResult.subState == "is_role") ∧
      ((["risky"] : List String).contains sampleClientResult.state = false →
        sampleClientResult.state = "email_invalid" →
        out.isValid = true ∧ out.isInvalid = true) :=
  convenienceFlagsFromLiterals
    { apiKey := some "key", rejectStates := some ["risky"] } none
    sampleClientResult "key" (by decide)
